import Mathlib

/-!
Shallow embedding of `Scripts/assembler.py`, a two-pass Hack assembler:

* `sanitizeline`   models `_sanitizeline` (strip `//`-comments, drop whitespace);
* `code_parse`     models `parseline.code_parse` (the ordered, longest-first
  regex over destination / computation / jump tokens plus the three lookup
  dictionaries);
* `address_parse`  models `parseline.address_parse`;
* `subclass`       models `parseline.subclass` (classification of one line);
* `parseline`      models construction of a `parseline` object;
* `symboltable`, `inittable`, `resolve` model the symbol-table class.

Python strings are embedded as `List Char`; a Python `dict` is an association
list where an insertion prepends and a lookup takes the first hit (so later
insertions shadow earlier ones, matching dict overwrite semantics).  Fallible
code returns `Except PyErr`; the constructors of `PyErr` name the Python
exception that the corresponding source line would raise.
-/

/-- The exceptions the embedded fragment of the program can raise.
`keyError k` models a `dict` lookup failing (Python `KeyError`);
`indexError` models indexing an empty string (Python `IndexError`, raised by
`line[0]` in `subclass` when `line` is empty);
`parseError line loc` models `raise ParseError(line, line_loc)` in the final
branch of `subclass`;
`typeErrorBadKwarg line loc` models the call
`ParseError(line, self.line_loc, type="a-type")` in `address_parse`: the
`ParseError.__init__` signature `(self, line, line_loc, path, itype)` accepts
no keyword named `type`, so CPython raises `TypeError` at the call site and no
`ParseError` object is ever constructed. -/
inductive PyErr where
  | keyError (key : List Char)
  | indexError
  | parseError (line : List Char) (line_loc : Option Nat)
  | typeErrorBadKwarg (line : List Char) (line_loc : Option Nat)
deriving DecidableEq, Repr

instance {ε α : Type} [DecidableEq ε] [DecidableEq α] : DecidableEq (Except ε α) :=
  fun x y =>
    match x, y with
    | Except.ok a, Except.ok b =>
        if h : a = b then Decidable.isTrue (by rw [h])
        else Decidable.isFalse (by intro hh; cases hh; exact h rfl)
    | Except.error a, Except.error b =>
        if h : a = b then Decidable.isTrue (by rw [h])
        else Decidable.isFalse (by intro hh; cases hh; exact h rfl)
    | Except.ok _, Except.error _ => Decidable.isFalse (by intro hh; cases hh)
    | Except.error _, Except.ok _ => Decidable.isFalse (by intro hh; cases hh)

/-- A symbol table: an association list from names to binary-address strings.
Prepending an entry models Python dict assignment (later entries shadow). -/
abbrev Tbl := List (List Char × List Char)

/-- First-hit association-list lookup, modelling Python `dict[key]` access. -/
def lookupTable : Tbl → List Char → Option (List Char)
  | [], _ => none
  | (k, v) :: rest, key => if k = key then some v else lookupTable rest key

/-- Character for a digit value below ten, as Python's `format` prints it. -/
def digitChar (d : Nat) : Char := Char.ofNat (48 + d)

/-- Fuel-driven base-`b` digit emitter (most significant first), prepending to
`acc`.  The fuel argument makes the recursion structural; callers pass `n`
itself as fuel, which always suffices. -/
def natToBaseAux (b : Nat) : Nat → Nat → List Char → List Char
  | 0, _, acc => acc
  | _ + 1, 0, acc => acc
  | fuel + 1, n + 1, acc =>
      natToBaseAux b fuel ((n + 1) / b) (digitChar ((n + 1) % b) :: acc)

/-- Base-`b` representation of `n`, most significant digit first; `0` is `"0"`.
Models the digit sequence produced by Python `format(n, 'b')` (for `b = 2`)
and `str(n)` (for `b = 10`). -/
def natToBase (b n : Nat) : List Char :=
  if n = 0 then ['0'] else natToBaseAux b n n []

/-- Binary digit string of a natural number, as Python `format(n, 'b')`. -/
def natToBin (n : Nat) : List Char := natToBase 2 n

/-- Decimal digit string of a natural number, as Python `str(n)`. -/
def natToDec (n : Nat) : List Char := natToBase 10 n

/-- Left-pad with `'0'` up to width `w`, as Python's `0`-fill does. -/
def padZeros (l : List Char) (w : Nat) : List Char :=
  List.replicate (w - l.length) '0' ++ l

/-- Python `format(i, '016b')`: binary digits zero-filled to a minimum total
width of 16 characters; a negative value carries a leading sign that counts
toward the width.  Values needing more than 16 characters are not truncated. -/
def format016b (i : Int) : List Char :=
  if i < 0 then '-' :: padZeros (natToBin i.natAbs) 15
  else padZeros (natToBin i.toNat) 16

/-- Prefix of the line before the first `//`, modelling
`re.split(r'//', line)[0]`. -/
def splitComment : List Char → List Char
  | [] => []
  | '/' :: '/' :: _ => []
  | c :: rest => c :: splitComment rest

/-- Models `_sanitizeline`: drop the comment tail, then remove every
whitespace character (`re.sub(r'\s', '', ...)`). -/
def sanitizeline (l : List Char) : List Char :=
  (splitComment l).filter (fun c => !c.isWhitespace)

/-- Digits of a Python integer literal after its first digit: plain digits,
with a single `_` allowed between digits (CPython underscore grouping).
`acc` is the value of the digits already consumed. -/
def pyDigitsAux : List Char → Nat → Option Nat
  | [], acc => some acc
  | '_' :: c :: rest, acc =>
      if c.isDigit then pyDigitsAux rest (10 * acc + (c.toNat - 48)) else none
  | c :: rest, acc =>
      if c.isDigit then pyDigitsAux rest (10 * acc + (c.toNat - 48)) else none

/-- A nonempty digit run starting with a digit, per CPython `int()`. -/
def pyDigitsStart : List Char → Option Nat
  | [] => none
  | c :: rest => if c.isDigit then pyDigitsAux rest (c.toNat - 48) else none

/-- Strip leading and trailing whitespace, as `int()` does before parsing. -/
def stripWS (l : List Char) : List Char :=
  ((l.dropWhile Char.isWhitespace).reverse.dropWhile Char.isWhitespace).reverse

/-- Models CPython `int(s)` on the strings this assembler can meet: optional
surrounding whitespace, one optional sign, then ASCII digits with optional
single underscores between digits.  (Non-ASCII digit alphabets are not
modelled; the assembler's operands never contain them.)  `none` models the
`ValueError` that `address_parse` catches. -/
def pyInt (l : List Char) : Option Int :=
  match stripWS l with
  | '+' :: rest => (pyDigitsStart rest).map (fun n => (n : Int))
  | '-' :: rest => (pyDigitsStart rest).map (fun n => -(n : Int))
  | rest => (pyDigitsStart rest).map (fun n => (n : Int))

/-! ### The three lookup dictionaries and the regex token lists -/

/-- `dest_table` from `code_parse`, including the `'None'` key used when the
destination group did not participate in the match. -/
def destTable : Tbl :=
  [("None".data, "000".data), ("M".data, "001".data), ("D".data, "010".data),
   ("MD".data, "011".data), ("A".data, "100".data), ("AM".data, "101".data),
   ("AD".data, "110".data), ("AMD".data, "111".data)]

/-- `comp_table` from `code_parse`. -/
def compTable : Tbl :=
  [("0".data, "1110101010".data), ("1".data, "1110111111".data),
   ("-1".data, "1110111010".data), ("D".data, "1110001100".data),
   ("A".data, "1110110000".data), ("!D".data, "1110001101".data),
   ("!A".data, "1110110001".data), ("-D".data, "1110001111".data),
   ("-A".data, "1110110011".data), ("D+1".data, "1110011111".data),
   ("A+1".data, "1110110111".data), ("D-1".data, "1110001110".data),
   ("A-1".data, "1110110010".data), ("D+A".data, "1110000010".data),
   ("D-A".data, "1110010011".data), ("A-D".data, "1110000111".data),
   ("D&A".data, "1110000000".data), ("D|A".data, "1110010101".data),
   ("M".data, "1111110000".data), ("!M".data, "1111110001".data),
   ("-M".data, "1111110011".data), ("M+1".data, "1111110111".data),
   ("M-1".data, "1111110010".data), ("D+M".data, "1111000010".data),
   ("D-M".data, "1111010011".data), ("M-D".data, "1111000111".data),
   ("D&M".data, "1111000000".data), ("D|M".data, "1111010101".data)]

/-- `jmp_table` from `code_parse`, including the `'None'` key. -/
def jmpTable : Tbl :=
  [("None".data, "000".data), ("JGT".data, "001".data), ("JEQ".data, "010".data),
   ("JGE".data, "011".data), ("JLT".data, "100".data), ("JNE".data, "101".data),
   ("JLE".data, "110".data), ("JMP".data, "111".data)]

/-- Destination alternatives of `_re_dest`, in the regex's left-to-right
order (`AMD|AD|AM|MD|A|M|D`). -/
def destAlts : List (List Char) :=
  ["AMD".data, "AD".data, "AM".data, "MD".data, "A".data, "M".data, "D".data]

/-- Computation alternatives of `_re_comp`, in the regex's left-to-right
order; the trailing `0?` means `"0"` is tried last and an empty match (no
computation) is the final fallback. -/
def compAlts : List (List Char) :=
  ["D|A".data, "D&A".data, "A-D".data, "D-A".data, "D+A".data, "A-1".data,
   "D-1".data, "A+1".data, "D+1".data, "D|M".data, "D&M".data, "M-D".data,
   "D-M".data, "D+M".data, "M-1".data, "M+1".data, "-M".data, "!M".data,
   "M".data, "-A".data, "-D".data, "!A".data, "!D".data, "A".data, "D".data,
   "-1".data, "1".data, "0".data]

/-- Jump alternatives of `_re_jmp`, in the regex's left-to-right order. -/
def jmpAlts : List (List Char) :=
  ["JGT".data, "JEQ".data, "JGE".data, "JLT".data, "JNE".data, "JLE".data,
   "JMP".data]

/-- Python `str(x)` applied to an optional matched group: the token itself, or
the string `"None"` when the group did not participate. -/
def keyOf (o : Option (List Char)) : List Char :=
  match o with
  | some t => t
  | none => "None".data

/-- A `dict[key]` access that can fail, modelling Python `KeyError`. -/
def tableGet (tbl : Tbl) (k : List Char) : Except PyErr (List Char) :=
  match lookupTable tbl k with
  | some v => Except.ok v
  | none => Except.error (PyErr.keyError k)

/-- The destination group of the anchored regex: the first alternative of
`(AMD|AD|AM|MD|A|M|D)=` that fits at the start of the line, if any.  Since
every later group of the regex can match the empty string, the overall match
never fails and the engine never revisits this choice. -/
def destTokOf (line : List Char) : Option (List Char) :=
  destAlts.find? (fun t => (t ++ ['=']).isPrefixOf line)

/-- The line with a matched `dest=` consumed. -/
def afterDestOf (line : List Char) : List Char :=
  match destTokOf line with
  | some t => line.drop (t.length + 1)
  | none => line

/-- The computation group: the first computation alternative that fits after
the destination; `none` models the trailing `0?` matching the empty string. -/
def compTokOf (line : List Char) : Option (List Char) :=
  compAlts.find? (fun t => t.isPrefixOf (afterDestOf line))

/-- The line with destination and computation consumed. -/
def afterCompOf (line : List Char) : List Char :=
  match compTokOf line with
  | some t => (afterDestOf line).drop t.length
  | none => afterDestOf line

/-- The jump group `(;(JGT|JEQ|JGE|JLT|JNE|JLE|JMP))?`: a jump token is bound
only when a `;` followed by one of the seven alternatives comes next. -/
def jmpTokOf (line : List Char) : Option (List Char) :=
  match afterCompOf line with
  | ';' :: rest => jmpAlts.find? (fun t => t.isPrefixOf rest)
  | _ => none

/-- Models `parseline.code_parse`.  The anchored regex
`((AMD|AD|AM|MD|A|M|D)=)? (comp-alternation|0?) (;(JGT|...|JMP))?` is embedded
as three ordered first-match scans: since every group can match the empty
string, the regex as a whole always succeeds and the engine never backtracks
across groups, so the first alternative that fits at each position is final.
The returned computation is `none` exactly when the computation group matched
the empty string (Python's falsy `''` test before the `comp_table` lookup). -/
def code_parse (line : List Char) :
    Except PyErr (List Char × Option (List Char) × List Char) :=
  match tableGet destTable (keyOf (destTokOf line)),
        (match compTokOf line with
         | some t => (tableGet compTable t).map some
         | none => Except.ok none),
        tableGet jmpTable (keyOf (jmpTokOf line)) with
  | Except.ok d, Except.ok c, Except.ok j => Except.ok (d, c, j)
  | Except.error e, _, _ => Except.error e
  | _, Except.error e, _ => Except.error e
  | _, _, Except.error e => Except.error e

/-- The symbol-table class: `table` is the dict of resolved names, `used` the
last consumed variable register, `lines` the label-stripped instruction
sequence kept for pass 2. -/
structure symboltable where
  table : Tbl
  used : Nat
  lines : List (List Char)
deriving DecidableEq, Repr

/-- Models `symboltable.resolve`: return the stored address, or assign the
next free variable register (`used + 1`), store it, and return it. -/
def resolve (t : symboltable) (label : List Char) : List Char × symboltable :=
  match lookupTable t.table label with
  | some binary => (binary, t)
  | none =>
      let used := t.used + 1
      let binary := format016b (Int.ofNat used)
      (binary, { t with table := (label, binary) :: t.table, used := used })

/-- Models `parseline.address_parse`: an operand that parses as an integer is
formatted directly; otherwise it is resolved against the symbol table, and
with no table available the bad-keyword `ParseError(...)` call raises
`TypeError`.  Returns the possibly grown table alongside the binary. -/
def address_parse (line : List Char) (line_loc : Option Nat)
    (symbolics : Option symboltable) :
    Except PyErr (List Char × Option symboltable) :=
  match pyInt line with
  | some n => Except.ok (format016b n, symbolics)
  | none =>
      match symbolics with
      | some s =>
          let r := resolve s line
          Except.ok (r.1, some r.2)
      | none => Except.error (PyErr.typeErrorBadKwarg line line_loc)

/-- The string `'a_type'`. -/
def aType : List Char := "a_type".data

/-- The string `'c_type'`. -/
def cType : List Char := "c_type".data

/-- Models `parseline.subclass`.  Mirrors the Python evaluation order:
`code_parse` runs first; then `line[0]` is inspected, which on an empty line
raises `IndexError` before any later branch (in particular before the
source's dead `elif line == ''` branch) can run. -/
def subclass (line : List Char) (line_loc : Option Nat)
    (symbolics : Option symboltable) :
    Except PyErr ((Option (List Char) × List Char) × Option symboltable) :=
  match code_parse line with
  | Except.error e => Except.error e
  | Except.ok (dest, comp, jmp) =>
      match line with
      | [] => Except.error PyErr.indexError
      | c0 :: _ =>
          if c0 = '@' then
            match address_parse (line.drop 1) line_loc symbolics with
            | Except.ok (binary, sym) => Except.ok ((some aType, binary), sym)
            | Except.error e => Except.error e
          else
            match comp with
            | some c => Except.ok ((some cType, c ++ dest ++ jmp), symbolics)
            | none =>
                if c0 = '(' ∧ line.getLast? = some ')' then
                  Except.ok ((none, []), symbolics)
                else Except.error (PyErr.parseError line line_loc)

/-- A constructed `parseline` object: the sanitized line, the location, and
the type tag and binary produced by `subclass`. -/
structure Parseline where
  line : List Char
  line_loc : Option Nat
  type : Option (List Char)
  binary : List Char
deriving DecidableEq, Repr

/-- Models `parseline.__init__`: stores the *sanitized* line in `self.line`
but hands the *raw* argument to `subclass`. -/
def parseline (line : List Char) (line_loc : Option Nat)
    (symbolics : Option symboltable) :
    Except PyErr (Parseline × Option symboltable) :=
  match subclass line line_loc symbolics with
  | Except.ok (tb, sym) =>
      Except.ok ({ line := sanitizeline line, line_loc := line_loc,
                   type := tb.1, binary := tb.2 }, sym)
  | Except.error e => Except.error e

/-! ### Symbol-table construction (`__init__` / `_sanitizeasm` / `inittable`) -/

/-- Models `_sanitizeasm`: sanitize every line and drop the empty ones. -/
def sanitizeasm (lines : List (List Char)) : List (List Char) :=
  (lines.map sanitizeline).filter (fun l => !l.isEmpty)

/-- The label-declaration test of `inittable`:
`line[0] == '(' and line[-1] == ')'`. -/
def isLabel (l : List Char) : Bool :=
  (l.head? == some '(') && (l.getLast? == some ')')

/-- Python `line[1:-1]`: drop the first and last character. -/
def innerText (l : List Char) : List Char := (l.drop 1).dropLast

/-- State of the `inittable` scan: the running instruction counter `c_idx`,
the table built so far, and the retained instruction lines in order. -/
structure InitState where
  c_idx : Nat
  table : Tbl
  insns : List (List Char)
deriving DecidableEq, Repr

/-- One iteration of the `inittable` loop: a label line stores its innerText text
at the current instruction index; any other line is counted and retained. -/
def initStep (s : InitState) (line : List Char) : InitState :=
  if isLabel line then
    { s with table := (innerText line, format016b (Int.ofNat s.c_idx)) :: s.table }
  else
    { s with c_idx := s.c_idx + 1, insns := s.insns ++ [line] }

/-- The seeded table: `R0..R15` at `0..15` (the `'R' + str(i)` comprehension),
then the seven reserved names.  All 23 keys are distinct, so the association
list's order does not affect lookups. -/
def seedTable : Tbl :=
  [("SP".data, format016b 0), ("LCL".data, format016b 1),
   ("ARG".data, format016b 2), ("THIS".data, format016b 3),
   ("THAT".data, format016b 4), ("SCREEN".data, format016b 16384),
   ("KBD".data, format016b 24576)]
  ++ (List.range 16).map (fun i => ('R' :: natToDec i, format016b (Int.ofNat i)))

/-- Models `symboltable.inittable`: seed the table, set `used = 15`, and scan
the sanitized lines once. -/
def inittable (lines : List (List Char)) : InitState :=
  lines.foldl initStep { c_idx := 0, table := seedTable, insns := [] }

/-- Models `symboltable.__init__`: sanitize, build the table, keep the
label-stripped instruction lines, with `used = 15`. -/
def mkSymboltable (raw : List (List Char)) : symboltable :=
  { table := (inittable (sanitizeasm raw)).table, used := 15,
    lines := (inittable (sanitizeasm raw)).insns }

/-- A sequence of `resolve` calls threaded through the table, keeping only the
final table (pass-2 variable resolution). -/
def resolveMany (t : symboltable) (names : List (List Char)) : symboltable :=
  names.foldl (fun t n => (resolve t n).2) t

/-- Number of non-label lines, the quantity `c_idx` counts. -/
def countInsns (lines : List (List Char)) : Nat :=
  (lines.filter (fun l => !isLabel l)).length

/-- One step of reading a binary string MSB-first. -/
def binStep (a : Nat) (c : Char) : Nat := 2 * a + (if c = '1' then 1 else 0)

/-- MSB-first value of a binary digit string (`'1'` counts one, anything else
zero), used to state what a correct encoding means. -/
def binVal (l : List Char) : Nat := l.foldl binStep 0

/-- The line `[dest=]comp[;jump]` assembled from optional destination and
jump tokens around a computation token. -/
def mkCline (d : Option (List Char)) (c : List Char) (j : Option (List Char)) :
    List Char :=
  (match d with
   | some t => t ++ ['=']
   | none => []) ++ c ++
  (match j with
   | some t => ';' :: t
   | none => [])

/-- The destination lookup table as the spec states it: an absent destination
encodes as `000`, a present token via `dest_table`. -/
def destPairs : List (Option (List Char) × List Char) :=
  [(none, "000".data), (some "M".data, "001".data), (some "D".data, "010".data),
   (some "MD".data, "011".data), (some "A".data, "100".data),
   (some "AM".data, "101".data), (some "AD".data, "110".data),
   (some "AMD".data, "111".data)]

/-- The jump lookup table as the spec states it: an absent jump encodes as
`000`, a present token via `jmp_table`. -/
def jmpPairs : List (Option (List Char) × List Char) :=
  [(none, "000".data), (some "JGT".data, "001".data),
   (some "JEQ".data, "010".data), (some "JGE".data, "011".data),
   (some "JLT".data, "100".data), (some "JNE".data, "101".data),
   (some "JLE".data, "110".data), (some "JMP".data, "111".data)]

/-! ### Helper lemmas -/

/-- Unfolding the digit emitter through `Nat.digits` (any fuel at least `n`). -/
theorem natToBaseAux_two_eq :
    ∀ (fuel n : Nat) (acc : List Char), n ≤ fuel →
      natToBaseAux 2 fuel n acc = ((Nat.digits 2 n).map digitChar).reverse ++ acc := by
  intro fuel
  induction fuel with
  | zero =>
      intro n acc h
      interval_cases n
      simp [natToBaseAux]
  | succ f ih =>
      intro n acc h
      match n with
      | 0 => simp [natToBaseAux]
      | m + 1 =>
          have hdiv : (m + 1) / 2 < m + 1 := Nat.div_lt_self (Nat.succ_pos m) one_lt_two
          rw [natToBaseAux, ih ((m + 1) / 2) _ (by omega),
            Nat.digits_def' one_lt_two (Nat.succ_pos m)]
          simp

/-- `natToBin` on a nonzero number is the reversed digit list of `Nat.digits 2`. -/
theorem natToBin_eq (n : Nat) (hn : n ≠ 0) :
    natToBin n = ((Nat.digits 2 n).map digitChar).reverse := by
  unfold natToBin natToBase
  rw [if_neg hn, natToBaseAux_two_eq n n [] le_rfl, List.append_nil]

/-- The `binVal` fold from an arbitrary accumulator. -/
theorem binVal_foldl (l : List Char) :
    ∀ a : Nat, List.foldl binStep a l = a * 2 ^ l.length + binVal l := by
  induction l with
  | nil => intro a; simp [binVal]
  | cons c l ih =>
      intro a
      have hc : binVal (c :: l) = binStep 0 c * 2 ^ l.length + binVal l := by
        unfold binVal
        rw [List.foldl_cons, ih (binStep 0 c)]
        rfl
      rw [List.foldl_cons, ih (binStep a c), hc]
      unfold binStep
      generalize (if c = '1' then 1 else 0 : Nat) = t
      simp only [List.length_cons, pow_succ]
      ring

/-- Leading zero characters do not change the value of a binary string. -/
theorem binVal_padZeros (l : List Char) (w : Nat) :
    binVal (padZeros l w) = binVal l := by
  unfold padZeros binVal
  rw [List.foldl_append]
  have hz : ∀ k : Nat,
      List.foldl binStep 0 (List.replicate k '0') = 0 := by
    intro k
    induction k with
    | zero => rfl
    | succ k ih =>
        rw [List.replicate_succ, List.foldl_cons]
        have h0 : binStep 0 '0' = 0 := by decide
        rw [h0]
        exact ih
  rw [hz]

/-- The value of a reversed, character-mapped binary digit list. -/
theorem binVal_rev_map (ds : List Nat) (h : ∀ d ∈ ds, d < 2) :
    binVal ((ds.map digitChar).reverse) = Nat.ofDigits 2 ds := by
  induction ds with
  | nil => simp [binVal, Nat.ofDigits_nil]
  | cons d ds ih =>
      have hd : d < 2 := h d (List.mem_cons_self d ds)
      have ihh := ih (fun x hx => h x (List.mem_cons_of_mem d hx))
      simp only [List.map_cons, List.reverse_cons]
      unfold binVal
      rw [List.foldl_append]
      simp only [List.foldl_cons, List.foldl_nil]
      have hfold :
          List.foldl binStep 0 ((ds.map digitChar).reverse)
            = Nat.ofDigits 2 ds := ihh
      rw [hfold, Nat.ofDigits_cons]
      unfold binStep
      interval_cases d
      · have h0 : ¬ (digitChar 0 = '1') := by decide
        rw [if_neg h0]
        omega
      · have h1 : digitChar 1 = '1' := by decide
        rw [if_pos h1]
        omega

/-- `natToBin` really encodes its argument (MSB first). -/
theorem binVal_natToBin (n : Nat) : binVal (natToBin n) = n := by
  by_cases hn : n = 0
  · subst hn; decide
  · rw [natToBin_eq n hn,
      binVal_rev_map _ (fun d hd => Nat.digits_lt_base one_lt_two hd),
      Nat.ofDigits_digits]

/-- Binary strings of numbers below `2 ^ 16` need at most 16 characters. -/
theorem natToBin_len_le (n : Nat) (h : n < 65536) : (natToBin n).length ≤ 16 := by
  by_cases hn : n = 0
  · subst hn; decide
  · rw [natToBin_eq n hn]
    simp only [List.length_reverse, List.length_map]
    rw [Nat.digits_len 2 n one_lt_two hn]
    have hp : (65536 : Nat) = 2 ^ 16 := by norm_num
    have hlog : Nat.log 2 n < 16 := Nat.log_lt_of_lt_pow hn (hp ▸ h)
    omega

/-- Every character `natToBin` emits is `'0'` or `'1'`. -/
theorem natToBin_chars (n : Nat) : ∀ c ∈ natToBin n, c = '0' ∨ c = '1' := by
  by_cases hn : n = 0
  · subst hn; decide
  · rw [natToBin_eq n hn]
    intro c hc
    simp only [List.mem_reverse, List.mem_map] at hc
    obtain ⟨d, hd, rfl⟩ := hc
    have : d < 2 := Nat.digits_lt_base one_lt_two hd
    interval_cases d
    · left; decide
    · right; decide

/-- Padding a string of at most 16 characters to width 16 gives exactly 16. -/
theorem padZeros_len (l : List Char) (h : l.length ≤ 16) :
    (padZeros l 16).length = 16 := by
  simp [padZeros]
  omega

/-- Padding with zeros preserves membership in the binary alphabet. -/
theorem padZeros_chars (l : List Char) (w : Nat)
    (h : ∀ c ∈ l, c = '0' ∨ c = '1') :
    ∀ c ∈ padZeros l w, c = '0' ∨ c = '1' := by
  intro c hc
  rcases List.mem_append.mp hc with hz | hl
  · left; exact (List.eq_of_mem_replicate hz)
  · exact h c hl

/-- A `resolve` of a name already in the table returns the stored value and
leaves the table untouched. -/
theorem resolve_hit (t : symboltable) (name v : List Char)
    (h : lookupTable t.table name = some v) : resolve t name = (v, t) := by
  unfold resolve
  rw [h]

/-- One `resolve` call never changes the address of an already-present name. -/
theorem lookup_resolve_pres (t : symboltable) (n name v : List Char)
    (h : lookupTable t.table name = some v) :
    lookupTable ((resolve t n).2).table name = some v := by
  unfold resolve
  cases hl : lookupTable t.table n with
  | some w => exact h
  | none =>
      show lookupTable
        ((n, format016b (Int.ofNat (t.used + 1))) :: t.table) name = some v
      simp only [lookupTable]
      by_cases hn : n = name
      · subst hn; rw [hl] at h; cases h
      · rw [if_neg hn]; exact h

/-- Any sequence of `resolve` calls preserves the address of a present name. -/
theorem lookup_resolveMany_pres (names : List (List Char)) :
    ∀ (t : symboltable) (name v : List Char),
      lookupTable t.table name = some v →
      lookupTable (resolveMany t names).table name = some v := by
  induction names with
  | nil => intro t name v h; exact h
  | cons n ns ih =>
      intro t name v h
      unfold resolveMany at *
      rw [List.foldl_cons]
      exact ih _ _ _ (lookup_resolve_pres t n name v h)

/-- The instruction counter after a scan: its start value plus the number of
non-label lines scanned. -/
theorem foldl_initStep_c_idx :
    ∀ (lines : List (List Char)) (s : InitState),
      (lines.foldl initStep s).c_idx = s.c_idx + countInsns lines := by
  intro lines
  induction lines with
  | nil => intro s; simp [countInsns]
  | cons l ls ih =>
      intro s
      rw [List.foldl_cons, ih]
      unfold initStep countInsns
      by_cases h : isLabel l
      · simp [h, List.filter_cons]
      · simp [h, List.filter_cons, countInsns]
        omega

/-- The retained instruction lines after a scan: the start value followed by
the scanned non-label lines, in order. -/
theorem foldl_initStep_insns :
    ∀ (lines : List (List Char)) (s : InitState),
      (lines.foldl initStep s).insns
        = s.insns ++ lines.filter (fun l => !isLabel l) := by
  intro lines
  induction lines with
  | nil => intro s; simp
  | cons l ls ih =>
      intro s
      rw [List.foldl_cons, ih]
      unfold initStep
      by_cases h : isLabel l
      · simp [h, List.filter_cons]
      · simp [h, List.filter_cons]

/-- Scanning lines none of which declares `name` leaves `name`'s entry as it
was before the scan. -/
theorem foldl_initStep_lookup :
    ∀ (lines : List (List Char)) (s : InitState) (name : List Char),
      (∀ l ∈ lines, isLabel l = true → innerText l ≠ name) →
      lookupTable (lines.foldl initStep s).table name
        = lookupTable s.table name := by
  intro lines
  induction lines with
  | nil => intro s name _; rfl
  | cons l ls ih =>
      intro s name h
      rw [List.foldl_cons,
        ih _ name (fun l' hl' => h l' (List.mem_cons_of_mem l hl'))]
      unfold initStep
      by_cases hl : isLabel l
      · simp only [hl, if_true]
        simp only [lookupTable]
        rw [if_neg (h l (List.mem_cons_self l ls) hl)]
      · simp [hl]

/-- Classification of a line that does not start with `@` and whose
computation group matched: a compute instruction encoded
computation ++ destination ++ jump. -/
theorem subclass_ctype (c0 : Char) (rest : List Char) (h0 : ¬ c0 = '@')
    (d j c : List Char)
    (hcp : code_parse (c0 :: rest) = Except.ok (d, some c, j))
    (loc : Option Nat) (sym : Option symboltable) :
    subclass (c0 :: rest) loc sym
      = Except.ok ((some cType, c ++ d ++ j), sym) := by
  unfold subclass
  rw [hcp]
  simp [h0]

/-! ### The claims -/

set_option maxHeartbeats 4000000 in
/-- C1: for every compute instruction line `[dest=]comp[;jump]` whose
computation term is a key of the fixed computation table — destination
ranging over absent or the seven destination tokens, jump over absent or the
seven jump tokens — `subclass` classifies the line as a compute instruction
(`c_type`) and returns the 16-bit word `computation-code (10 bits) ++
destination-code (3 bits) ++ jump-code (3 bits)` from the fixed lookup
tables, an absent destination or jump encoding as `000`; in particular
`D=D+1` encodes to `1110011111010000` (see the witness). -/
theorem c1_compute_encoding (loc : Option Nat) (sym : Option symboltable) :
    ∀ dp ∈ destPairs, ∀ cp ∈ compTable, ∀ jp ∈ jmpPairs,
      subclass (mkCline dp.1 cp.1 jp.1) loc sym
        = Except.ok ((some cType, cp.2 ++ dp.2 ++ jp.2), sym) := by
  have hcore : ∀ dp ∈ destPairs, ∀ cp ∈ compTable, ∀ jp ∈ jmpPairs,
      code_parse (mkCline dp.1 cp.1 jp.1) = Except.ok (dp.2, some cp.2, jp.2)
      ∧ (mkCline dp.1 cp.1 jp.1).head? ≠ some '@'
      ∧ mkCline dp.1 cp.1 jp.1 ≠ [] := by decide
  intro dp hdp cp hcp jp hjp
  obtain ⟨h1, h2, h3⟩ := hcore dp hdp cp hcp jp hjp
  cases hL : mkCline dp.1 cp.1 jp.1 with
  | nil => exact absurd hL h3
  | cons c0 rest =>
      rw [hL] at h1 h2
      have h0 : ¬ c0 = '@' := by
        intro hc
        exact h2 (by rw [hc]; rfl)
      exact subclass_ctype c0 rest h0 _ _ _ h1 loc sym

/-- Witness for C1: the compute line `D=D+1` classifies as `c_type` and
encodes to `1110011111010000`. -/
theorem c1_witness :
    subclass ("D=D+1".data) none none
      = Except.ok ((some cType, "1110011111010000".data), none) :=
  (c1_compute_encoding none none (some "D".data, "010".data) (by decide)
    ("D+1".data, "1110011111".data) (by decide)
    (none, "000".data) (by decide)).trans (by decide)

/-- C2 counterexample: the address instruction `@65536` carries an operand
that parses as a non-negative base-10 integer, yet the emitted instruction is
a 17-character string, not a 16-character binary string as the claim states
for every such operand. -/
theorem c2_counterexample :
    subclass ("@65536".data) none none
      = Except.ok ((some aType, "10000000000000000".data), none)
    ∧ ("10000000000000000".data : List Char).length = 17 := by decide

/-- C2 (amended): for an address-instruction operand that parses as a
non-negative base-10 integer *below 2^16*, the emitted instruction is that
value as a 16-character zero-padded MSB-first binary string; for an operand
that does not parse as an integer, the emitted instruction is exactly the
string returned by the symbol table's `resolve` applied to the operand (and
the table is updated accordingly). -/
theorem c2_amended (op : List Char) (loc : Option Nat) (sym : symboltable) :
    (∀ n : Nat, pyInt op = some (n : Int) → n < 65536 →
      address_parse op loc (some sym) = Except.ok (format016b (n : Int), some sym)
      ∧ (format016b (n : Int)).length = 16
      ∧ (∀ c ∈ format016b (n : Int), c = '0' ∨ c = '1')
      ∧ binVal (format016b (n : Int)) = n)
    ∧ (pyInt op = none →
      address_parse op loc (some sym)
        = Except.ok ((resolve sym op).1, some ((resolve sym op).2))) := by
  constructor
  · intro n hn hlt
    have hfmt : format016b (n : Int) = padZeros (natToBin n) 16 := by
      unfold format016b
      rw [if_neg (by simp)]
      simp
    refine ⟨?_, ?_, ?_, ?_⟩
    · unfold address_parse
      rw [hn]
    · rw [hfmt]; exact padZeros_len _ (natToBin_len_le n hlt)
    · rw [hfmt]; exact padZeros_chars _ _ (natToBin_chars n)
    · rw [hfmt, binVal_padZeros, binVal_natToBin]
  · intro hn
    unfold address_parse
    rw [hn]

/-- Witness for C2 (amended): `@2` encodes numerically to the 16-bit value
two, and the symbolic operand `i` is emitted exactly as `resolve` returns. -/
theorem c2_witness :
    (address_parse ("2".data) none (some (mkSymboltable []))
       = Except.ok (format016b ((2 : Nat) : Int), some (mkSymboltable []))
     ∧ (format016b ((2 : Nat) : Int)).length = 16
     ∧ (∀ c ∈ format016b ((2 : Nat) : Int), c = '0' ∨ c = '1')
     ∧ binVal (format016b ((2 : Nat) : Int)) = 2)
    ∧ address_parse ("i".data) none (some (mkSymboltable []))
        = Except.ok ((resolve (mkSymboltable []) ("i".data)).1,
                     some ((resolve (mkSymboltable []) ("i".data)).2)) :=
  ⟨(c2_amended ("2".data) none (mkSymboltable [])).1 2 (by decide) (by decide),
   (c2_amended ("i".data) none (mkSymboltable [])).2 (by decide)⟩

/-- One scan step on a label-shaped line prepends its table entry. -/
theorem initStep_label (s : InitState) (l : List Char) (h : isLabel l = true) :
    initStep s l
      = { s with table := (innerText l, format016b (Int.ofNat s.c_idx)) :: s.table } := by
  unfold initStep
  rw [if_pos h]

/-- C3: during construction a sanitized line is treated as a label
declaration iff it starts with `(` and ends with `)`; its innerText text is
mapped to the 0-based count of non-label instructions seen so far, so any
later reference — also after arbitrary further `resolve` calls, i.e. forward
or backward — resolves to that index, which is the position of the next real
instruction after the declaration in the retained (label-stripped)
instruction sequence.  The hypothesis `hnodup` rules out a later duplicate
declaration of the same label, which would overwrite the entry
(dict last-write-wins). -/
theorem c3_label_resolution (raw pre post : List (List Char)) (lab : List Char)
    (hsan : sanitizeasm raw = pre ++ lab :: post)
    (hlab : isLabel lab = true)
    (hnodup : ∀ l ∈ post, isLabel l = true → innerText l ≠ innerText lab) :
    (∀ names, resolve (resolveMany (mkSymboltable raw) names) (innerText lab)
        = (format016b (Int.ofNat (countInsns pre)),
           resolveMany (mkSymboltable raw) names))
    ∧ (mkSymboltable raw).lines
        = (sanitizeasm raw).filter (fun l => !isLabel l) := by
  have hlook : lookupTable (mkSymboltable raw).table (innerText lab)
      = some (format016b (Int.ofNat (countInsns pre))) := by
    show lookupTable (inittable (sanitizeasm raw)).table (innerText lab) = _
    unfold inittable
    rw [hsan, List.foldl_append, List.foldl_cons,
      foldl_initStep_lookup post _ _ hnodup, initStep_label _ _ hlab]
    show (if innerText lab = innerText lab
        then some (format016b (Int.ofNat
          (List.foldl initStep { c_idx := 0, table := seedTable, insns := [] }
            pre).c_idx))
        else lookupTable
          (List.foldl initStep { c_idx := 0, table := seedTable, insns := [] }
            pre).table (innerText lab)) = _
    rw [if_pos rfl, foldl_initStep_c_idx, Nat.zero_add]
  constructor
  · intro names
    exact resolve_hit _ _ _ (lookup_resolveMany_pres names _ _ _ hlook)
  · show (inittable (sanitizeasm raw)).insns = _
    unfold inittable
    rw [foldl_initStep_insns]
    rfl

/-- Witness for C3: for the source `(LOOP)` then `@LOOP`, the label `LOOP`
resolves to `0000000000000000` and the retained instruction list is just
`@LOOP`. -/
theorem c3_witness :
    resolve (mkSymboltable ["(LOOP)".data, "@LOOP".data]) ("LOOP".data)
      = ("0000000000000000".data, mkSymboltable ["(LOOP)".data, "@LOOP".data])
    ∧ (mkSymboltable ["(LOOP)".data, "@LOOP".data]).lines = ["@LOOP".data] := by
  have h := c3_label_resolution ["(LOOP)".data, "@LOOP".data] [] ["@LOOP".data]
      ("(LOOP)".data) (by decide) (by decide) (by decide)
  exact ⟨(h.1 []).trans (by decide), h.2.trans (by decide)⟩

/-- C4: `resolve` on a name absent from the table assigns the next free
variable address `used + 1`, stores the mapping and advances the counter;
construction always leaves `used = 15`, so the first fresh name receives
address 16, the next distinct one 17, and so on; and once a name is stored,
every later `resolve` of it — across any interleaved sequence of other
`resolve` calls — returns the same string as the first call. -/
theorem c4_resolve_assignment :
    (∀ (t : symboltable) (name : List Char),
        lookupTable t.table name = none →
        resolve t name
          = (format016b (Int.ofNat (t.used + 1)),
             { table := (name, format016b (Int.ofNat (t.used + 1))) :: t.table,
               used := t.used + 1, lines := t.lines }))
    ∧ (∀ raw, (mkSymboltable raw).used = 15)
    ∧ (∀ (t : symboltable) (name v : List Char),
        lookupTable t.table name = some v →
        ∀ names, resolve (resolveMany t names) name = (v, resolveMany t names)) := by
  refine ⟨?_, ?_, ?_⟩
  · intro t name h
    unfold resolve
    rw [h]
  · intro raw; rfl
  · intro t name v h names
    exact resolve_hit _ _ _ (lookup_resolveMany_pres names t name v h)

/-- Witness for C4: on a freshly built table, `i` gets address 16
(`0000000000010000`), a second distinct name `j` gets 17, and resolving `i`
again after the interleaved `resolve` of `j` returns the same string. -/
theorem c4_witness :
    (resolve (mkSymboltable []) ("i".data)).1 = "0000000000010000".data
    ∧ (resolve ((resolve (mkSymboltable []) ("i".data)).2) ("j".data)).1
        = "0000000000010001".data
    ∧ resolve (resolveMany ((resolve (mkSymboltable []) ("i".data)).2)
          [("j".data)]) ("i".data)
        = ("0000000000010000".data,
           resolveMany ((resolve (mkSymboltable []) ("i".data)).2)
             [("j".data)]) := by
  refine ⟨?_, ?_, ?_⟩
  · rw [c4_resolve_assignment.1 (mkSymboltable []) ("i".data) (by decide)]
    decide
  · rw [c4_resolve_assignment.1 ((resolve (mkSymboltable []) ("i".data)).2)
      ("j".data) (by decide)]
    decide
  · exact c4_resolve_assignment.2.2 ((resolve (mkSymboltable []) ("i".data)).2)
      ("i".data) ("0000000000010000".data) (by decide) [("j".data)]

/-- C5 counterexample: already after seeding, the two distinct names `R0` and
`SP` both map to address `0000000000000000`, so the table does map two
distinct symbolic names to the same address. -/
theorem c5_counterexample :
    lookupTable (mkSymboltable []).table ("R0".data)
      = some ("0000000000000000".data)
    ∧ lookupTable (mkSymboltable []).table ("SP".data)
      = some ("0000000000000000".data)
    ∧ ("R0".data : List Char) ≠ "SP".data := by decide

/-- C5 (amended): distinct names may share an address (seeding aliases
`R0..R4` with `SP,LCL,ARG,THIS,THAT`, see the counterexample), but the table
is functional — at any point a name maps to at most one address — and once a
name is resolved its address survives any further sequence of `resolve`
calls unchanged. -/
theorem c5_functional_stable (t : symboltable) (name : List Char) :
    (∀ v1 v2, lookupTable t.table name = some v1 →
        lookupTable t.table name = some v2 → v1 = v2)
    ∧ (∀ v names, lookupTable t.table name = some v →
        lookupTable (resolveMany t names).table name = some v) := by
  constructor
  · intro v1 v2 h1 h2
    rw [h1] at h2
    exact Option.some.inj h2
  · intro v names h
    exact lookup_resolveMany_pres names t name v h

/-- Witness for C5 (amended): `SP`'s address survives a later variable
resolution. -/
theorem c5_witness :
    lookupTable (resolveMany (mkSymboltable []) [("x".data)]).table ("SP".data)
      = some ("0000000000000000".data) :=
  (c5_functional_stable (mkSymboltable []) ("SP".data)).2
    ("0000000000000000".data) [("x".data)] (by decide)

/-- C6 (code bug): the claim — and the source's own dead
`elif line == '': return None, ''` branch — says an empty line is silently
tolerated, but `subclass` evaluates `line[0]` first, so an empty line raises
`IndexError`; a label-shaped line, by contrast, is silently skipped as the
claim states. -/
theorem c6_empty_line_raises :
    subclass [] none none = Except.error PyErr.indexError
    ∧ subclass ("(LOOP)".data) none none = Except.ok ((none, []), none) := by
  decide

/-- C7 (code bug): with no symbol table supplied, a symbolic address operand
does not raise `ParseError` as the claim and the source docstring state:
the call `ParseError(line, self.line_loc, type="a-type")` passes the keyword
`type`, which `ParseError.__init__` does not accept, so Python raises
`TypeError` instead (uncatchable by the `except ParseError` handler in
`main`). -/
theorem c7_no_table_raises_type_error :
    subclass ("@sum".data) (some 3) none
      = Except.error (PyErr.typeErrorBadKwarg ("sum".data) (some 3)) := by
  decide

/-- A lookup into a table succeeds for any key of a list all of whose
members are present. -/
theorem tableGet_ok_of_mem (tbl : Tbl) (alts : List (List Char))
    (hall : ∀ x ∈ alts, (lookupTable tbl x).isSome = true)
    (t : List Char) (ht : t ∈ alts) :
    ∃ v, tableGet tbl t = Except.ok v := by
  have h2 := hall t ht
  cases hl : lookupTable tbl t with
  | none => rw [hl] at h2; cases h2
  | some v =>
      refine ⟨v, ?_⟩
      unfold tableGet
      rw [hl]

/-- C8: `code_parse` is total and never raises: every input yields a
`(dest, comp, jmp)` triple, the failure of the computation group being
signalled by a `none` computation, never by an error — every token either
group can bind is a key of its lookup dictionary, so no `KeyError` is
possible. -/
theorem c8_code_parse_total (line : List Char) :
    ∃ r : List Char × Option (List Char) × List Char,
      code_parse line = Except.ok r := by
  have hdest : ∃ v, tableGet destTable (keyOf (destTokOf line)) = Except.ok v := by
    cases hd : destTokOf line with
    | none => exact ⟨"000".data, by decide⟩
    | some t =>
        exact tableGet_ok_of_mem destTable destAlts (by decide) t
          (List.mem_of_find?_eq_some hd)
  have hcomp : ∃ co : Option (List Char),
      (match compTokOf line with
       | some t => (tableGet compTable t).map some
       | none => Except.ok none) = Except.ok co := by
    cases hc : compTokOf line with
    | none => exact ⟨none, rfl⟩
    | some t =>
        obtain ⟨v, hv⟩ := tableGet_ok_of_mem compTable compAlts (by decide) t
          (List.mem_of_find?_eq_some hc)
        refine ⟨some v, ?_⟩
        show Except.map some (tableGet compTable t) = Except.ok (some v)
        rw [hv]
        rfl
  have hjmp : ∃ v, tableGet jmpTable (keyOf (jmpTokOf line)) = Except.ok v := by
    have hmem : ∀ t, jmpTokOf line = some t → t ∈ jmpAlts := by
      intro t ht
      unfold jmpTokOf at ht
      split at ht
      · exact List.mem_of_find?_eq_some ht
      · cases ht
    cases hj : jmpTokOf line with
    | none => exact ⟨"000".data, by decide⟩
    | some t => exact tableGet_ok_of_mem jmpTable jmpAlts (by decide) t (hmem t hj)
  obtain ⟨d, hd2⟩ := hdest
  obtain ⟨co, hc2⟩ := hcomp
  obtain ⟨j, hj2⟩ := hjmp
  refine ⟨(d, co, j), ?_⟩
  unfold code_parse
  rw [hd2, hc2, hj2]

/-- C9: the line `Memory=Address` is not a real instruction, yet the
computation grammar spuriously matches its leading `M`, so the encoder
raises no error and returns a compute instruction with the plausible-looking
encoding `1111110000000000`. -/
theorem c9_spurious_compute_match :
    parseline ("Memory=Address".data) none none
      = Except.ok ({ line := "Memory=Address".data, line_loc := none,
                     type := some cType,
                     binary := "1111110000000000".data }, none) := by decide

/-- C10: a `parseline` object always stores the sanitized form of its
argument in `line`, but its type and binary are computed from the raw
argument; on the raw line `D = D + 1` this yields binary `1110001100000000`
(the comp `D` alone), while the sanitized line `D=D+1` yields
`1110011111010000`, so classification does not commute with the sanitizer
even though the stored `line` fields agree. -/
theorem c10_raw_vs_sanitized :
    (∀ (raw : List Char) (loc : Option Nat) (sym : Option symboltable)
        (pl : Parseline) (sym2 : Option symboltable),
        parseline raw loc sym = Except.ok (pl, sym2) →
        pl.line = sanitizeline raw)
    ∧ parseline ("D = D + 1".data) none none
        = Except.ok ({ line := "D=D+1".data, line_loc := none,
                       type := some cType,
                       binary := "1110001100000000".data }, none)
    ∧ parseline (sanitizeline ("D = D + 1".data)) none none
        = Except.ok ({ line := "D=D+1".data, line_loc := none,
                       type := some cType,
                       binary := "1110011111010000".data }, none)
    ∧ ("1110001100000000".data : List Char) ≠ "1110011111010000".data := by
  refine ⟨?_, by decide, by decide, by decide⟩
  intro raw loc sym pl sym2 h
  unfold parseline at h
  cases hs : subclass raw loc sym with
  | error e => rw [hs] at h; cases h
  | ok p =>
      obtain ⟨tb, sym3⟩ := p
      rw [hs] at h
      cases h
      rfl

/-- Witness for C10: the stored `line` field of the object built from the
raw `D = D + 1` equals the sanitized input. -/
theorem c10_witness :
    ({ line := "D=D+1".data, line_loc := none, type := some cType,
       binary := "1110001100000000".data } : Parseline).line
      = sanitizeline ("D = D + 1".data) :=
  c10_raw_vs_sanitized.1 ("D = D + 1".data) none none
    { line := "D=D+1".data, line_loc := none, type := some cType,
      binary := "1110001100000000".data } none (by decide)
